import Mathlib

/-!
Verification development for the curling shot-accuracy analyzer
(`enhanced_accuracy_processor.py`): the Position Snapshot Differ, the
Target Inference Engine, and the Accuracy Metric Calculator.

Stone coordinates are stored values echoed at full precision by the
database layer; they are modelled as rationals (`ℚ`).  The geometric
computations (`np.sqrt`, `np.arctan2`, `np.degrees`) are modelled over
the reals, with `atan2 y x` rendered as `Complex.arg ⟨x, y⟩`, which has
the same value and the same range `(-π, π]`.
-/

/-- A labeled stone position row: `color`, `x`, `y` (meters, button-centered). -/
structure Position where
  color : String
  x : ℚ
  y : ℚ
deriving DecidableEq, Repr

/-- The fields of a shot record consulted by the inference engine:
the shot-type string and the acting side's color label. -/
structure ShotData where
  type : String
  color : String
deriving DecidableEq, Repr

/-- An inferred target: coordinates plus a confidence scalar,
modelling the dict `{'x': _, 'y': _, 'confidence': _}`. -/
structure Target where
  x : ℚ
  y : ℚ
  confidence : ℚ
deriving DecidableEq, Repr

/-- Sheet constant `HOUSE_RADIUS = 1.829` (meters). -/
noncomputable def HOUSE_RADIUS : ℝ := 1.829

/-- Sheet constant `BUTTON_X = 0.0`. -/
def BUTTON_X : ℚ := 0

/-- Sheet constant `BUTTON_Y = 0.0`. -/
def BUTTON_Y : ℚ := 0

/-- The `(x, y)` pairs of the stones of a given color in a snapshot;
models `set((s['x'], s['y']) for s in stones if s['color'] == color)`
(membership is all the set is used for). -/
def sideCoords (c : String) (stones : List Position) : List (ℚ × ℚ) :=
  (stones.filter (fun s => s.color == c)).map (fun s => (s.x, s.y))

/-- The number of stones of a given color in a snapshot;
models `len([s for s in stones if s['color'] == color])`. -/
def sideCount (c : String) (stones : List Position) : ℕ :=
  (stones.filter (fun s => s.color == c)).length

/-- The Differ's `_find_thrown_stone`: if the acting color's stone count
increased from `pre` to `post`, return the first `post` stone of that
color whose `(x, y)` pair does not occur among the `pre` stones of that
color; otherwise (and when no such stone exists) return `none`. -/
def findThrownStone (shot : ShotData) (pre post : List Position) : Option Position :=
  let shooting_color := shot.color
  let pre_count := sideCount shooting_color pre
  let post_count := sideCount shooting_color post
  if pre_count < post_count then
    let pre_positions := sideCoords shooting_color pre
    post.find? (fun s => s.color == shooting_color && !(pre_positions.contains (s.x, s.y)))
  else
    none

/-- The Differ's `_find_removed_stones`: every `pre` stone whose
`(color, x, y)` triple is absent from `post`, in `pre`'s order. -/
def findRemovedStones (pre post : List Position) : List Position :=
  let post_positions := post.map (fun s => (s.color, s.x, s.y))
  pre.filter (fun s => !(post_positions.contains (s.color, s.x, s.y)))

/-- Euclidean distance between two stones,
`np.sqrt((s['x'] - t['x'])**2 + (s['y'] - t['y'])**2)`. -/
noncomputable def stoneDist (s t : Position) : ℝ :=
  Real.sqrt (((s.x : ℝ) - (t.x : ℝ)) ^ 2 + ((s.y : ℝ) - (t.y : ℝ)) ^ 2)

/-- The stone of a list nearest to `thrown`, first one on ties; models
`stones[np.argmin([dist(s, thrown) for s in stones])]` (`np.argmin`
returns the first index attaining the minimum). -/
noncomputable def closestStoneTo (thrown : Position) : List Position → Option Position
  | [] => none
  | s :: rest =>
    match closestStoneTo thrown rest with
    | none => some s
    | some t => if stoneDist s thrown ≤ stoneDist t thrown then some s else some t

/-- Opponent color selection: `'red' if color == 'yellow' else 'yellow'`. -/
def opponentColor (c : String) : String :=
  if c == "yellow" then "red" else "yellow"

/-- The engine's `_infer_draw_target`. -/
noncomputable def inferDrawTarget (shot : ShotData) (pre post : List Position) : Target :=
  match findThrownStone shot pre post with
  | none => ⟨BUTTON_X, BUTTON_Y, 0.2⟩
  | some thrown =>
    let distance_to_button := Real.sqrt ((thrown.x : ℝ) ^ 2 + (thrown.y : ℝ) ^ 2)
    if distance_to_button ≤ HOUSE_RADIUS then
      ⟨thrown.x, thrown.y, 0.8⟩
    else
      ⟨BUTTON_X, BUTTON_Y, 0.6⟩

/-- The engine's `_infer_guard_target`. -/
def inferGuardTarget (shot : ShotData) (pre post : List Position) : Target :=
  match findThrownStone shot pre post with
  | none => ⟨0, 3.5, 0.3⟩
  | some thrown =>
    if 1.5 ≤ thrown.y ∧ thrown.y ≤ 6.0 then
      ⟨thrown.x, thrown.y, 0.8⟩
    else
      ⟨0, 3.5, 0.5⟩

/-- The engine's `_infer_takeout_target`: first removed stone at 0.9;
else the opponent stone (from `pre`) closest to the thrown stone at 0.7;
else the button at 0.3. -/
noncomputable def inferTakeoutTarget (shot : ShotData) (pre post : List Position) : Target :=
  match findRemovedStones pre post with
  | target_stone :: _ => ⟨target_stone.x, target_stone.y, 0.9⟩
  | [] =>
    match findThrownStone shot pre post with
    | some thrown =>
      let opponent_stones := pre.filter (fun s => s.color == opponentColor shot.color)
      match closestStoneTo thrown opponent_stones with
      | some closest_stone => ⟨closest_stone.x, closest_stone.y, 0.7⟩
      | none => ⟨BUTTON_X, BUTTON_Y, 0.3⟩
    | none => ⟨BUTTON_X, BUTTON_Y, 0.3⟩

/-- The engine's `_infer_hit_roll_target`. -/
def inferHitRollTarget (shot : ShotData) (pre post : List Position) : Target :=
  match findThrownStone shot pre post with
  | some thrown => ⟨thrown.x, thrown.y, 0.7⟩
  | none => ⟨BUTTON_X, BUTTON_Y, 0.4⟩

/-- The engine's `_infer_freeze_target`: midpoint between the thrown stone
and the closest `post` stone at different coordinates (0.8); otherwise the
button at 0.4. -/
noncomputable def inferFreezeTarget (shot : ShotData) (pre post : List Position) : Target :=
  match findThrownStone shot pre post with
  | some thrown =>
    let other_stones := post.filter (fun s => !(s.x == thrown.x && s.y == thrown.y))
    match closestStoneTo thrown other_stones with
    | some closest_stone =>
      ⟨(thrown.x + closest_stone.x) / 2, (thrown.y + closest_stone.y) / 2, 0.8⟩
    | none => ⟨BUTTON_X, BUTTON_Y, 0.4⟩
  | none => ⟨BUTTON_X, BUTTON_Y, 0.4⟩

/-- The engine's `_infer_tap_target`: delegates to the takeout heuristic. -/
noncomputable def inferTapTarget (shot : ShotData) (pre post : List Position) : Target :=
  inferTakeoutTarget shot pre post

/-- The engine's `_infer_peel_target`: delegates to the takeout heuristic. -/
noncomputable def inferPeelTarget (shot : ShotData) (pre post : List Position) : Target :=
  inferTakeoutTarget shot pre post

/-- The engine's `infer_target`: dispatch on the shot-type string over the
`shot_type_targets` table, with the button at confidence 0.3 as the
default for unknown shot types. -/
noncomputable def inferTarget (shot : ShotData) (pre post : List Position) : Target :=
  if shot.type == "Draw" then inferDrawTarget shot pre post
  else if shot.type == "Guard" then inferGuardTarget shot pre post
  else if shot.type == "Take-out" then inferTakeoutTarget shot pre post
  else if shot.type == "Hit and Roll" then inferHitRollTarget shot pre post
  else if shot.type == "Freeze" then inferFreezeTarget shot pre post
  else if shot.type == "Tap" then inferTapTarget shot pre post
  else if shot.type == "Peel" then inferPeelTarget shot pre post
  else ⟨BUTTON_X, BUTTON_Y, 0.3⟩

/-- The metric record returned by `calculate_accuracy_metrics`. -/
structure AccuracyMetrics where
  target_distance_error : ℝ
  path_direction_error : ℝ
  distance_category : String
  direction_category : String
  error_magnitude : String

/-- The ordered threshold table `DISTANCE_THRESHOLDS` (meters);
`none` stands for `float('inf')`. -/
def DISTANCE_THRESHOLDS : List (String × Option ℚ) :=
  [("on_target", some 0.20), ("close", some 0.50), ("moderate", some 1.00), ("large", none)]

/-- The ordered threshold table `DIRECTION_THRESHOLDS` (degrees);
`none` stands for `float('inf')`. -/
def DIRECTION_THRESHOLDS : List (String × Option ℚ) :=
  [("on_line", some 3.0), ("slight", some 8.0), ("moderate", some 15.0), ("large", none)]

/-- The categorization loop: starting from the default `'large'`, walk the
ordered table and return the first category whose threshold the error does
not exceed (an infinite threshold, `none`, always matches). -/
noncomputable def categorize (e : ℝ) : List (String × Option ℚ) → String
  | [] => "large"
  | (category, threshold) :: rest =>
    match threshold with
    | none => category
    | some t => if e ≤ (t : ℝ) then category else categorize e rest

/-- The angle convention of the calculator:
`np.arctan2(p['y'], p['x']) if p['x'] != 0 or p['y'] != 0 else 0`,
with `atan2 y x = Complex.arg ⟨x, y⟩`. -/
noncomputable def angleOf (x y : ℚ) : ℝ :=
  if x ≠ 0 ∨ y ≠ 0 then Complex.arg ⟨(x : ℝ), (y : ℝ)⟩ else 0

/-- The composite error-magnitude rule as a function of the two category
strings, mirroring the cascaded membership tests of the source. -/
def errorMagnitude (distance_category direction_category : String) : String :=
  if distance_category = "on_target" ∧
      (direction_category = "on_line" ∨ direction_category = "slight") then
    "minor"
  else if (distance_category = "on_target" ∨ distance_category = "close") ∧
      (direction_category = "on_line" ∨ direction_category = "slight" ∨
        direction_category = "moderate") then
    "moderate"
  else
    "major"

/-- The Metric Calculator `calculate_accuracy_metrics(shot_id, target,
final_position)`: Euclidean distance error; direction error as the absolute
difference of the button-relative angles in degrees, wrapped into
`[0, 180]`; first-match categorization against both threshold tables; and
the composite error magnitude.  `shot_id` is accepted and unused, as in
the source. -/
noncomputable def calculate_accuracy_metrics (shot_id : ℕ) (target : Target)
    (final_position : Position) : AccuracyMetrics :=
  let target_distance_error := Real.sqrt
    (((final_position.x : ℝ) - (target.x : ℝ)) ^ 2 +
     ((final_position.y : ℝ) - (target.y : ℝ)) ^ 2)
  let target_angle := angleOf target.x target.y
  let final_angle := angleOf final_position.x final_position.y
  let raw_direction_error := |(target_angle - final_angle) * (180 / Real.pi)|
  let path_direction_error :=
    if 180 < raw_direction_error then 360 - raw_direction_error else raw_direction_error
  let distance_category := categorize target_distance_error DISTANCE_THRESHOLDS
  let direction_category := categorize path_direction_error DIRECTION_THRESHOLDS
  let error_magnitude :=
    if distance_category = "on_target" ∧
        (direction_category = "on_line" ∨ direction_category = "slight") then
      "minor"
    else if (distance_category = "on_target" ∨ distance_category = "close") ∧
        (direction_category = "on_line" ∨ direction_category = "slight" ∨
          direction_category = "moderate") then
      "moderate"
    else
      "major"
  ⟨target_distance_error, path_direction_error, distance_category,
    direction_category, error_magnitude⟩

/-- The record assembled by `process_shot_accuracy` for persistence:
the computed metrics plus the identifying/export fields added by
`metrics.update`. -/
structure ShotAccuracyRecord where
  metrics : AccuracyMetrics
  shot_id : ℕ
  final_position_x : ℚ
  final_position_y : ℚ
  target_x : ℚ
  target_y : ℚ
  target_confidence : ℚ

/-- The in-memory core of `process_shot_accuracy` (the SQL reads and the
connection management around it are the external persistence adapter):
given the shot row and the pre/post snapshots, return `none` when the post
snapshot is empty or when no thrown stone is identified, and otherwise the
metrics of the thrown stone against the inferred target. -/
noncomputable def process_shot_accuracy (shot_id : ℕ) (shot : ShotData)
    (pre post : List Position) : Option ShotAccuracyRecord :=
  if post.isEmpty then none
  else
    let target := inferTarget shot pre post
    match findThrownStone shot pre post with
    | none => none
    | some thrown =>
      some ⟨calculate_accuracy_metrics shot_id target thrown,
        shot_id, thrown.x, thrown.y, target.x, target.y, target.confidence⟩

/-- A stone of the given color contributes its coordinate pair to
`sideCoords`. -/
theorem mem_sideCoords {c : String} {stones : List Position} {s : Position}
    (hs : s ∈ stones) (hc : s.color = c) : (s.x, s.y) ∈ sideCoords c stones := by
  simp only [sideCoords, List.mem_map, List.mem_filter]
  exact ⟨s, ⟨hs, by simp [hc]⟩, rfl⟩

/-- The predicate tested by `_find_thrown_stone`'s scan over `post`. -/
theorem thrown_pred_eq_true {c : String} {pre : List Position} {s : Position} :
    (s.color == c && !((sideCoords c pre).contains (s.x, s.y))) = true ↔
      s.color = c ∧ (s.x, s.y) ∉ sideCoords c pre := by
  simp [List.contains, List.elem_eq_mem]

/-- C9: the output of `calculate_accuracy_metrics` is independent of its
`shot_id` argument — any two shot identifiers with the same target and
final position produce identical metric records, so the identifier
influences no computed metric. -/
theorem calculate_accuracy_metrics_shot_id_irrelevant :
    ∀ (id₁ id₂ : ℕ) (target : Target) (final : Position),
      calculate_accuracy_metrics id₁ target final =
        calculate_accuracy_metrics id₂ target final :=
  fun _ _ _ _ => rfl

/-- C3: the composite `error_magnitude` is a function of the distance and
direction category values alone (the calculator's field equals
`errorMagnitude` applied to its two category fields), and for all category
strings the rules fire in order: `minor` iff distance is `on_target` and
direction is `on_line` or `slight`; `moderate` iff that failed and
distance is `on_target` or `close` while direction is `on_line`, `slight`
or `moderate`; `major` otherwise. -/
theorem error_magnitude_table :
    (∀ (shot_id : ℕ) (target : Target) (final : Position),
      (calculate_accuracy_metrics shot_id target final).error_magnitude =
        errorMagnitude
          (calculate_accuracy_metrics shot_id target final).distance_category
          (calculate_accuracy_metrics shot_id target final).direction_category) ∧
    (∀ dc dir : String,
      (errorMagnitude dc dir = "minor" ↔
        dc = "on_target" ∧ (dir = "on_line" ∨ dir = "slight")) ∧
      (errorMagnitude dc dir = "moderate" ↔
        ¬(dc = "on_target" ∧ (dir = "on_line" ∨ dir = "slight")) ∧
          ((dc = "on_target" ∨ dc = "close") ∧
            (dir = "on_line" ∨ dir = "slight" ∨ dir = "moderate"))) ∧
      (errorMagnitude dc dir = "major" ↔
        ¬(dc = "on_target" ∧ (dir = "on_line" ∨ dir = "slight")) ∧
          ¬((dc = "on_target" ∨ dc = "close") ∧
            (dir = "on_line" ∨ dir = "slight" ∨ dir = "moderate")))) := by
  refine ⟨fun _ _ _ => rfl, fun dc dir => ?_⟩
  unfold errorMagnitude
  by_cases h₁ : dc = "on_target" ∧ (dir = "on_line" ∨ dir = "slight")
  · simp [h₁]
  · by_cases h₂ : (dc = "on_target" ∨ dc = "close") ∧
        (dir = "on_line" ∨ dir = "slight" ∨ dir = "moderate")
    · simp [h₁, h₂]
    · simp [h₁, h₂]

/-- C7: `_find_removed_stones` returns exactly the elements of `pre` whose
`(color, x, y)` triple is absent from `post`, in `pre`'s order (it equals a
filter of `pre`); when `post` equals `pre` the result is empty, and when
`post` is empty the result is `pre` itself. -/
theorem find_removed_spec :
    ∀ pre post : List Position,
      (findRemovedStones pre post =
        pre.filter (fun s =>
          decide (∀ t ∈ post, ¬(t.color = s.color ∧ t.x = s.x ∧ t.y = s.y)))) ∧
      findRemovedStones pre pre = [] ∧
      findRemovedStones pre [] = pre := by
  intro pre post
  refine ⟨?_, ?_, ?_⟩
  · unfold findRemovedStones
    refine List.filter_congr (fun s _ => ?_)
    simp only [List.elem_eq_mem, List.mem_map, Bool.not_eq_true']
    rw [← decide_not, decide_eq_decide]
    constructor
    · intro h t ht hts
      exact h ⟨t, ht, by simp [Prod.ext_iff, hts.1, hts.2.1, hts.2.2]⟩
    · rintro h ⟨t, ht, hts⟩
      simp only [Prod.ext_iff] at hts
      exact h t ht ⟨hts.1, hts.2.1, hts.2.2⟩
  · unfold findRemovedStones
    rw [List.filter_eq_nil_iff]
    intro s hs
    simp only [List.elem_eq_mem, List.mem_map, Bool.not_eq_true', Bool.not_eq_false,
      decide_eq_true_eq]
    exact ⟨s, hs, rfl⟩
  · unfold findRemovedStones
    simp

/-- C5: the distance category assigned by the calculator's loop is the
first entry of the ordered table `{on_target: 0.20, close: 0.50,
moderate: 1.00, large: ∞}` whose threshold the error does not exceed
(first match wins, in increasing threshold order), and a category is
always assigned; the analogous statement holds for direction categories
over `{on_line: 3, slight: 8, moderate: 15, large: ∞}`; the calculator's
category fields are exactly these lookups on its two error values. -/
theorem category_first_match :
    ∀ e : ℝ,
      (categorize e DISTANCE_THRESHOLDS =
        if e ≤ 0.20 then "on_target" else if e ≤ 0.50 then "close"
        else if e ≤ 1.00 then "moderate" else "large") ∧
      (categorize e DIRECTION_THRESHOLDS =
        if e ≤ 3.0 then "on_line" else if e ≤ 8.0 then "slight"
        else if e ≤ 15.0 then "moderate" else "large") ∧
      categorize e DISTANCE_THRESHOLDS ∈ ["on_target", "close", "moderate", "large"] ∧
      categorize e DIRECTION_THRESHOLDS ∈ ["on_line", "slight", "moderate", "large"] ∧
      (∀ (shot_id : ℕ) (target : Target) (final : Position),
        (calculate_accuracy_metrics shot_id target final).distance_category =
          categorize (calculate_accuracy_metrics shot_id target final).target_distance_error
            DISTANCE_THRESHOLDS ∧
        (calculate_accuracy_metrics shot_id target final).direction_category =
          categorize (calculate_accuracy_metrics shot_id target final).path_direction_error
            DIRECTION_THRESHOLDS) := by
  intro e
  have hdist : categorize e DISTANCE_THRESHOLDS =
      if e ≤ 0.20 then "on_target" else if e ≤ 0.50 then "close"
      else if e ≤ 1.00 then "moderate" else "large" := by
    simp only [DISTANCE_THRESHOLDS, categorize]
    norm_num
  have hdir : categorize e DIRECTION_THRESHOLDS =
      if e ≤ 3.0 then "on_line" else if e ≤ 8.0 then "slight"
      else if e ≤ 15.0 then "moderate" else "large" := by
    simp only [DIRECTION_THRESHOLDS, categorize]
    norm_num
  refine ⟨hdist, hdir, ?_, ?_, fun _ _ _ => ⟨rfl, rfl⟩⟩
  · rw [hdist]; split_ifs <;> simp
  · rw [hdir]; split_ifs <;> simp

/-- C10: for a Freeze shot where a thrown stone is found but every
post-snapshot stone shares the thrown stone's coordinates, no midpoint
target is produced — inference falls through to the button at confidence
0.4, the same fallback used when no thrown stone is found at all. -/
theorem freeze_no_midpoint_fallback :
    (∀ (shot : ShotData) (pre post : List Position) (thrown : Position),
      findThrownStone shot pre post = some thrown →
      post.filter (fun s => !(s.x == thrown.x && s.y == thrown.y)) = [] →
      inferFreezeTarget shot pre post = ⟨BUTTON_X, BUTTON_Y, 0.4⟩) ∧
    (∀ (shot : ShotData) (pre post : List Position),
      findThrownStone shot pre post = none →
      inferFreezeTarget shot pre post = ⟨BUTTON_X, BUTTON_Y, 0.4⟩) := by
  constructor
  · intro shot pre post thrown hthrown hfilter
    simp only [inferFreezeTarget, hthrown]
    rw [hfilter]
    simp [closestStoneTo]
  · intro shot pre post hthrown
    simp [inferFreezeTarget, hthrown]

/-- Witness for C10: a Freeze shot whose only post stone is the thrown
stone itself, and a Freeze shot with no thrown stone, both yield the
button at confidence 0.4. -/
theorem freeze_no_midpoint_fallback_witness :
    inferFreezeTarget ⟨"Freeze", "red"⟩ [] [⟨"red", 1, 1⟩] = ⟨BUTTON_X, BUTTON_Y, 0.4⟩ ∧
    inferFreezeTarget ⟨"Freeze", "red"⟩ [] [] = ⟨BUTTON_X, BUTTON_Y, 0.4⟩ :=
  ⟨freeze_no_midpoint_fallback.1 ⟨"Freeze", "red"⟩ [] [⟨"red", 1, 1⟩] ⟨"red", 1, 1⟩
      (by decide) (by decide),
    freeze_no_midpoint_fallback.2 ⟨"Freeze", "red"⟩ [] [] (by decide)⟩

/-- C2: `_find_thrown_stone` returns `none` when the acting color's count
did not increase, and `none` when every acting-color post stone's
coordinate pair already occurs pre-shot; when the count increased and a
unique acting-color post stone has a coordinate pair absent from the
pre-shot acting-color coordinates, that stone is returned; in particular,
for any `pre` and any `post` formed from it by a single insertion of an
acting-color stone at a fresh coordinate pair, the inserted stone is
returned. -/
theorem find_thrown_spec :
    (∀ (shot : ShotData) (pre post : List Position),
      sideCount shot.color post ≤ sideCount shot.color pre →
      findThrownStone shot pre post = none) ∧
    (∀ (shot : ShotData) (pre post : List Position),
      (∀ s ∈ post, s.color = shot.color → (s.x, s.y) ∈ sideCoords shot.color pre) →
      findThrownStone shot pre post = none) ∧
    (∀ (shot : ShotData) (pre post : List Position) (e : Position),
      sideCount shot.color pre < sideCount shot.color post →
      e ∈ post → e.color = shot.color →
      (e.x, e.y) ∉ sideCoords shot.color pre →
      (∀ s ∈ post, s.color = shot.color →
        (s.x, s.y) ∉ sideCoords shot.color pre → s = e) →
      findThrownStone shot pre post = some e) ∧
    (∀ (shot : ShotData) (a b : List Position) (e : Position),
      e.color = shot.color →
      (e.x, e.y) ∉ sideCoords shot.color (a ++ b) →
      findThrownStone shot (a ++ b) (a ++ e :: b) = some e) := by
  refine ⟨?_, ?_, ?_, ?_⟩
  · intro shot pre post h
    simp only [findThrownStone]
    rw [if_neg (by omega)]
  · intro shot pre post h
    simp only [findThrownStone]
    split
    · rw [List.find?_eq_none]
      intro s hs hp
      rw [thrown_pred_eq_true] at hp
      exact hp.2 (h s hs hp.1)
    · rfl
  · intro shot pre post e hcount he hec hfresh huniq
    simp only [findThrownStone]
    rw [if_pos hcount]
    cases hfind : post.find?
        (fun s => s.color == shot.color &&
          !((sideCoords shot.color pre).contains (s.x, s.y))) with
    | none =>
      rw [List.find?_eq_none] at hfind
      exact absurd (thrown_pred_eq_true.mpr ⟨hec, hfresh⟩) (hfind e he)
    | some w =>
      have hpw0 := List.find?_some hfind
      simp only [thrown_pred_eq_true] at hpw0
      have hpw := hpw0
      have hwmem := List.mem_of_find?_eq_some hfind
      rw [huniq w hwmem hpw.1 hpw.2]
  · intro shot a b e hec hfresh
    have hpe : (e.color == shot.color) = true := by simp [hec]
    have hcount : sideCount shot.color (a ++ b) < sideCount shot.color (a ++ e :: b) := by
      simp only [sideCount, List.filter_append, List.length_append,
        List.filter_cons, hpe, if_pos, List.length_cons]
      omega
    simp only [findThrownStone]
    rw [if_pos hcount, List.find?_append]
    have ha : a.find?
        (fun s => s.color == shot.color &&
          !((sideCoords shot.color (a ++ b)).contains (s.x, s.y))) = none := by
      rw [List.find?_eq_none]
      intro s hs hp
      rw [thrown_pred_eq_true] at hp
      exact hp.2 (mem_sideCoords (List.mem_append_left b hs) hp.1)
    rw [ha, Option.none_or]
    have hpe2 : (e.color == shot.color &&
        !((sideCoords shot.color (a ++ b)).contains (e.x, e.y))) = true :=
      thrown_pred_eq_true.mpr ⟨hec, hfresh⟩
    exact List.find?_cons_of_pos _ hpe2

/-- Witness for C2: concrete instances of all four conjuncts — a shrinking
snapshot, a fully-coinciding snapshot, a unique fresh red stone, and an
insertion of a red stone into the middle of a yellow pair. -/
theorem find_thrown_spec_witness :
    findThrownStone ⟨"Draw", "red"⟩ [⟨"red", 1, 1⟩] [] = none ∧
    findThrownStone ⟨"Draw", "red"⟩ [⟨"red", 1, 1⟩] [⟨"red", 1, 1⟩, ⟨"red", 1, 1⟩] = none ∧
    findThrownStone ⟨"Draw", "red"⟩ [⟨"yellow", 1, 1⟩] [⟨"yellow", 1, 1⟩, ⟨"red", 2, 3⟩] =
      some ⟨"red", 2, 3⟩ ∧
    findThrownStone ⟨"Draw", "red"⟩ [⟨"yellow", 1, 1⟩, ⟨"yellow", 2, 2⟩]
      [⟨"yellow", 1, 1⟩, ⟨"red", 0, 4⟩, ⟨"yellow", 2, 2⟩] = some ⟨"red", 0, 4⟩ := by
  refine ⟨find_thrown_spec.1 ⟨"Draw", "red"⟩ [⟨"red", 1, 1⟩] [] (by decide),
    find_thrown_spec.2.1 ⟨"Draw", "red"⟩ [⟨"red", 1, 1⟩] [⟨"red", 1, 1⟩, ⟨"red", 1, 1⟩] ?_,
    find_thrown_spec.2.2.1 ⟨"Draw", "red"⟩ [⟨"yellow", 1, 1⟩]
      [⟨"yellow", 1, 1⟩, ⟨"red", 2, 3⟩] ⟨"red", 2, 3⟩ (by decide) (by decide) (by decide)
      (by decide) ?_,
    find_thrown_spec.2.2.2 ⟨"Draw", "red"⟩ [⟨"yellow", 1, 1⟩] [⟨"yellow", 2, 2⟩]
      ⟨"red", 0, 4⟩ (by decide) (by decide)⟩
  · decide
  · decide

/-- C2 counterexample: `post = [(red,1,1), (red,1,1)]` is formed from
`pre = [(red,1,1)]` by a single synthetic insertion of the side-labeled
position `(red,1,1)`, yet `_find_thrown_stone` returns `none` rather than
the inserted position — the coordinate-set difference cannot see an
insertion whose exact coordinate pair already occurs pre-shot. -/
theorem find_thrown_duplicate_insertion_counterexample :
    ¬(findThrownStone ⟨"Draw", "red"⟩ [⟨"red", 1, 1⟩] [⟨"red", 1, 1⟩, ⟨"red", 1, 1⟩] =
      some ⟨"red", 1, 1⟩) := by
  decide

/-- C1 counterexample: with an empty pre-snapshot and two new red stones in
the post-snapshot there are two candidate thrown positions (acting-side
post stones at coordinates not present pre-shot), yet
`process_shot_accuracy` still yields a record instead of an absent
outcome — the first candidate is silently used. -/
theorem process_shot_multi_candidate_counterexample :
    ((([⟨"red", 0, 0⟩, ⟨"red", 1, 1⟩] : List Position).filter (fun s =>
        s.color == "red" &&
          !((sideCoords "red" ([] : List Position)).contains (s.x, s.y)))).length = 2) ∧
    process_shot_accuracy 1 ⟨"Draw", "red"⟩ [] [⟨"red", 0, 0⟩, ⟨"red", 1, 1⟩] ≠ none := by
  constructor
  · decide
  · have hthrown : findThrownStone ⟨"Draw", "red"⟩ [] [⟨"red", 0, 0⟩, ⟨"red", 1, 1⟩] =
        some ⟨"red", 0, 0⟩ := by decide
    simp [process_shot_accuracy, hthrown]

/-- C1 amended: for a nonempty post-snapshot, the pipeline yields no
accuracy record exactly when `_find_thrown_stone` identifies no thrown
stone (no count increase, or zero discriminating candidates) — an absent
outcome, not an error value; when more than one candidate exists the first
one is silently used and a record is produced. -/
theorem process_shot_absent_iff_no_thrown :
    ∀ (shot_id : ℕ) (shot : ShotData) (pre post : List Position),
      post ≠ [] →
      (process_shot_accuracy shot_id shot pre post = none ↔
        findThrownStone shot pre post = none) := by
  intro shot_id shot pre post hpost
  cases post with
  | nil => exact absurd rfl hpost
  | cons p ps =>
    cases h : findThrownStone shot pre (p :: ps) with
    | none => simp [process_shot_accuracy, h]
    | some w => simp [process_shot_accuracy, h]

/-- Witness for the amended C1: a single-stone post-snapshot instance of
the absence equivalence. -/
theorem process_shot_absent_iff_no_thrown_witness :
    process_shot_accuracy 1 ⟨"Draw", "red"⟩ [] [⟨"red", 0, 0⟩] = none ↔
      findThrownStone ⟨"Draw", "red"⟩ [] [⟨"red", 0, 0⟩] = none :=
  process_shot_absent_iff_no_thrown 1 ⟨"Draw", "red"⟩ [] [⟨"red", 0, 0⟩] (by decide)

/-- A nonempty list always has a closest stone. -/
theorem closestStoneTo_cons_isSome (thrown a : Position) (l : List Position) :
    (closestStoneTo thrown (a :: l)).isSome := by
  simp only [closestStoneTo]
  cases closestStoneTo thrown l with
  | none => simp
  | some t =>
    dsimp only
    split <;> simp

/-- `closestStoneTo` returns an element of the list attaining the minimal
distance to the thrown stone. -/
theorem closestStoneTo_spec (thrown : Position) :
    ∀ (l : List Position) (m : Position), closestStoneTo thrown l = some m →
      m ∈ l ∧ ∀ s ∈ l, stoneDist m thrown ≤ stoneDist s thrown := by
  intro l
  induction l with
  | nil => intro m h; simp [closestStoneTo] at h
  | cons a rest ih =>
    intro m h
    simp only [closestStoneTo] at h
    cases hrest : closestStoneTo thrown rest with
    | none =>
      have hrnil : rest = [] := by
        cases rest with
        | nil => rfl
        | cons b bs =>
          have hsome := closestStoneTo_cons_isSome thrown b bs
          rw [hrest] at hsome
          simp at hsome
      subst hrnil
      rw [hrest] at h
      simp only [Option.some.injEq] at h
      subst h
      exact ⟨List.mem_singleton_self a, by intro s hs; rw [List.mem_singleton] at hs; rw [hs]⟩
    | some t =>
      rw [hrest] at h
      obtain ⟨htmem, htmin⟩ := ih t hrest
      dsimp only at h
      split at h
      case isTrue hle =>
        simp only [Option.some.injEq] at h
        subst h
        refine ⟨List.mem_cons_self a rest, fun s hs => ?_⟩
        rcases List.mem_cons.mp hs with hsa | hsr
        · rw [hsa]
        · exact le_trans hle (htmin s hsr)
      case isFalse hgt =>
        simp only [Option.some.injEq] at h
        subst h
        refine ⟨List.mem_cons_of_mem a htmem, fun s hs => ?_⟩
        rcases List.mem_cons.mp hs with hsa | hsr
        · rw [hsa]; exact le_of_lt (lt_of_not_le hgt)
        · exact htmin s hsr

/-- C6: the Take-out heuristic (to which Tap and Peel delegate) targets the
first removed stone at confidence 0.9; failing that, the opposing side's
pre-shot stone nearest to the thrown stone by Euclidean distance at 0.7;
failing that, the button at 0.3.  In particular, for pre `[(red,0,0)]` and
post `[(yellow,0.3,0.1)]` the inferred target is `(0,0)` at 0.9. -/
theorem infer_takeout_spec :
    (∀ (shot : ShotData) (pre post : List Position) (r : Position) (rest : List Position),
      findRemovedStones pre post = r :: rest →
      inferTakeoutTarget shot pre post = ⟨r.x, r.y, 0.9⟩) ∧
    (∀ (shot : ShotData) (pre post : List Position) (thrown closest : Position),
      findRemovedStones pre post = [] →
      findThrownStone shot pre post = some thrown →
      closestStoneTo thrown (pre.filter (fun s => s.color == opponentColor shot.color)) =
        some closest →
      inferTakeoutTarget shot pre post = ⟨closest.x, closest.y, 0.7⟩ ∧
      closest ∈ pre.filter (fun s => s.color == opponentColor shot.color) ∧
      ∀ s ∈ pre.filter (fun s => s.color == opponentColor shot.color),
        stoneDist closest thrown ≤ stoneDist s thrown) ∧
    (∀ (shot : ShotData) (pre post : List Position),
      findRemovedStones pre post = [] →
      findThrownStone shot pre post = none →
      inferTakeoutTarget shot pre post = ⟨BUTTON_X, BUTTON_Y, 0.3⟩) ∧
    (∀ (shot : ShotData) (pre post : List Position) (thrown : Position),
      findRemovedStones pre post = [] →
      findThrownStone shot pre post = some thrown →
      pre.filter (fun s => s.color == opponentColor shot.color) = [] →
      inferTakeoutTarget shot pre post = ⟨BUTTON_X, BUTTON_Y, 0.3⟩) ∧
    (inferTakeoutTarget ⟨"Take-out", "yellow"⟩ [⟨"red", 0, 0⟩] [⟨"yellow", 0.3, 0.1⟩] =
      ⟨0, 0, 0.9⟩) ∧
    (∀ (shot : ShotData) (pre post : List Position),
      inferTapTarget shot pre post = inferTakeoutTarget shot pre post ∧
      inferPeelTarget shot pre post = inferTakeoutTarget shot pre post) := by
  refine ⟨?_, ?_, ?_, ?_, ?_, fun _ _ _ => ⟨rfl, rfl⟩⟩
  · intro shot pre post r rest hrem
    simp only [inferTakeoutTarget]
    rw [hrem]
  · intro shot pre post thrown closest hrem hthrown hclosest
    obtain ⟨hmem, hmin⟩ := closestStoneTo_spec thrown _ closest hclosest
    refine ⟨?_, hmem, hmin⟩
    simp only [inferTakeoutTarget]
    rw [hrem, hthrown]
    simp only
    rw [hclosest]
  · intro shot pre post hrem hthrown
    simp only [inferTakeoutTarget]
    rw [hrem, hthrown]
  · intro shot pre post thrown hrem hthrown hopp
    simp only [inferTakeoutTarget]
    rw [hrem, hthrown]
    simp only
    rw [hopp]
    simp [closestStoneTo]
  · have hrem : findRemovedStones [⟨"red", 0, 0⟩] [⟨"yellow", 0.3, 0.1⟩] =
        ⟨"red", 0, 0⟩ :: [] := by decide
    simp only [inferTakeoutTarget]
    rw [hrem]

/-- Witness for C6: concrete instances of the removal, nearest-opponent,
no-thrown, and no-opponent branches. -/
theorem infer_takeout_spec_witness :
    inferTakeoutTarget ⟨"Take-out", "yellow"⟩ [⟨"red", 0, 0⟩] [⟨"yellow", 0.3, 0.1⟩] =
      ⟨0, 0, 0.9⟩ ∧
    inferTakeoutTarget ⟨"Take-out", "red"⟩ [⟨"yellow", 1, 1⟩]
      [⟨"yellow", 1, 1⟩, ⟨"red", 2, 2⟩] = ⟨1, 1, 0.7⟩ ∧
    inferTakeoutTarget ⟨"Take-out", "red"⟩ [⟨"yellow", 1, 1⟩] [⟨"yellow", 1, 1⟩] =
      ⟨BUTTON_X, BUTTON_Y, 0.3⟩ ∧
    inferTakeoutTarget ⟨"Take-out", "red"⟩ [] [⟨"red", 2, 2⟩] =
      ⟨BUTTON_X, BUTTON_Y, 0.3⟩ := by
  refine ⟨infer_takeout_spec.2.2.2.2.1,
    (infer_takeout_spec.2.1 ⟨"Take-out", "red"⟩ [⟨"yellow", 1, 1⟩]
      [⟨"yellow", 1, 1⟩, ⟨"red", 2, 2⟩] ⟨"red", 2, 2⟩ ⟨"yellow", 1, 1⟩
      (by decide) (by decide) ?_).1,
    infer_takeout_spec.2.2.1 ⟨"Take-out", "red"⟩ [⟨"yellow", 1, 1⟩] [⟨"yellow", 1, 1⟩]
      (by decide) (by decide),
    infer_takeout_spec.2.2.2.1 ⟨"Take-out", "red"⟩ [] [⟨"red", 2, 2⟩] ⟨"red", 2, 2⟩
      (by decide) (by decide) (by decide)⟩
  simp [closestStoneTo, opponentColor]

/-- The draw heuristic's confidence is one of 0.2, 0.6, 0.8. -/
theorem inferDrawTarget_confidence (shot : ShotData) (pre post : List Position) :
    0 ≤ (inferDrawTarget shot pre post).confidence ∧
    (inferDrawTarget shot pre post).confidence ≤ 1 := by
  simp only [inferDrawTarget]
  cases findThrownStone shot pre post with
  | none => norm_num
  | some thrown =>
    dsimp only
    split <;> norm_num

/-- The guard heuristic's confidence is one of 0.3, 0.5, 0.8. -/
theorem inferGuardTarget_confidence (shot : ShotData) (pre post : List Position) :
    0 ≤ (inferGuardTarget shot pre post).confidence ∧
    (inferGuardTarget shot pre post).confidence ≤ 1 := by
  simp only [inferGuardTarget]
  cases findThrownStone shot pre post with
  | none => norm_num
  | some thrown =>
    dsimp only
    split <;> norm_num

/-- The takeout heuristic's confidence is one of 0.3, 0.7, 0.9. -/
theorem inferTakeoutTarget_confidence (shot : ShotData) (pre post : List Position) :
    0 ≤ (inferTakeoutTarget shot pre post).confidence ∧
    (inferTakeoutTarget shot pre post).confidence ≤ 1 := by
  simp only [inferTakeoutTarget]
  cases findRemovedStones pre post with
  | cons r rest => norm_num
  | nil =>
    dsimp only
    cases findThrownStone shot pre post with
    | none => norm_num
    | some thrown =>
      dsimp only
      cases closestStoneTo thrown
          (pre.filter (fun s => s.color == opponentColor shot.color)) with
      | some c => norm_num
      | none => norm_num

/-- The hit-and-roll heuristic's confidence is one of 0.4, 0.7. -/
theorem inferHitRollTarget_confidence (shot : ShotData) (pre post : List Position) :
    0 ≤ (inferHitRollTarget shot pre post).confidence ∧
    (inferHitRollTarget shot pre post).confidence ≤ 1 := by
  simp only [inferHitRollTarget]
  cases findThrownStone shot pre post with
  | none => norm_num
  | some thrown => norm_num

/-- The freeze heuristic's confidence is one of 0.4, 0.8. -/
theorem inferFreezeTarget_confidence (shot : ShotData) (pre post : List Position) :
    0 ≤ (inferFreezeTarget shot pre post).confidence ∧
    (inferFreezeTarget shot pre post).confidence ≤ 1 := by
  simp only [inferFreezeTarget]
  cases findThrownStone shot pre post with
  | none => norm_num
  | some thrown =>
    dsimp only
    cases closestStoneTo thrown
        (post.filter (fun s => !(s.x == thrown.x && s.y == thrown.y))) with
    | some c => norm_num
    | none => norm_num

/-- C8: `infer_target` is total — every dispatch branch yields a target
with a confidence in `[0, 1]`, and an unrecognized shot-type string is not
an error: it yields the button at confidence 0.3. -/
theorem infer_target_total :
    ∀ (shot : ShotData) (pre post : List Position),
      0 ≤ (inferTarget shot pre post).confidence ∧
      (inferTarget shot pre post).confidence ≤ 1 ∧
      (shot.type ∉ ["Draw", "Guard", "Take-out", "Hit and Roll", "Freeze", "Tap", "Peel"] →
        inferTarget shot pre post = ⟨BUTTON_X, BUTTON_Y, 0.3⟩) := by
  intro shot pre post
  have hboth : 0 ≤ (inferTarget shot pre post).confidence ∧
      (inferTarget shot pre post).confidence ≤ 1 := by
    simp only [inferTarget, inferTapTarget, inferPeelTarget]
    split
    · exact inferDrawTarget_confidence shot pre post
    split
    · exact inferGuardTarget_confidence shot pre post
    split
    · exact inferTakeoutTarget_confidence shot pre post
    split
    · exact inferHitRollTarget_confidence shot pre post
    split
    · exact inferFreezeTarget_confidence shot pre post
    split
    · exact inferTakeoutTarget_confidence shot pre post
    split
    · exact inferTakeoutTarget_confidence shot pre post
    norm_num
  refine ⟨hboth.1, hboth.2, fun hmem => ?_⟩
  simp only [List.mem_cons, List.not_mem_nil, or_false, not_or] at hmem
  obtain ⟨h₁, h₂, h₃, h₄, h₅, h₆, h₇⟩ := hmem
  simp [inferTarget, h₁, h₂, h₃, h₄, h₅, h₆, h₇]

/-- Witness for C8: a shot-type string outside the dispatch table takes the
explicit default, and its confidence lies in `[0, 1]`. -/
theorem infer_target_total_witness :
    0 ≤ (inferTarget ⟨"Flick", "red"⟩ [] []).confidence ∧
    (inferTarget ⟨"Flick", "red"⟩ [] []).confidence ≤ 1 ∧
    inferTarget ⟨"Flick", "red"⟩ [] [] = ⟨BUTTON_X, BUTTON_Y, 0.3⟩ :=
  ⟨(infer_target_total ⟨"Flick", "red"⟩ [] []).1,
    (infer_target_total ⟨"Flick", "red"⟩ [] []).2.1,
    (infer_target_total ⟨"Flick", "red"⟩ [] []).2.2 (by decide)⟩

/-- The angle convention keeps every angle in `(-π, π]`: a point at the
origin gets angle 0, any other point the `atan2` value. -/
theorem angleOf_mem_Ioc (x y : ℚ) :
    -Real.pi < angleOf x y ∧ angleOf x y ≤ Real.pi := by
  unfold angleOf
  split
  · exact ⟨Complex.neg_pi_lt_arg _, Complex.arg_le_pi _⟩
  · have hpi := Real.pi_pos
    constructor <;> linarith

/-- C4: the calculator's direction error always lies in `[0, 180]`; it is
the absolute difference of the two button-relative angles converted to
degrees, replaced by 360 minus itself when it exceeds 180, and a point
exactly at the origin is given angle 0. -/
theorem direction_error_bound :
    ∀ (shot_id : ℕ) (target : Target) (final : Position),
      0 ≤ (calculate_accuracy_metrics shot_id target final).path_direction_error ∧
      (calculate_accuracy_metrics shot_id target final).path_direction_error ≤ 180 ∧
      (calculate_accuracy_metrics shot_id target final).path_direction_error =
        (if 180 <
            |(angleOf target.x target.y - angleOf final.x final.y) * (180 / Real.pi)| then
          360 - |(angleOf target.x target.y - angleOf final.x final.y) * (180 / Real.pi)|
        else
          |(angleOf target.x target.y - angleOf final.x final.y) * (180 / Real.pi)|) ∧
      angleOf 0 0 = 0 := by
  intro shot_id target final
  have hpi := Real.pi_pos
  have ht := angleOf_mem_Ioc target.x target.y
  have hf := angleOf_mem_Ioc final.x final.y
  set Δ := angleOf target.x target.y - angleOf final.x final.y with hΔ
  have habs : |Δ| < 2 * Real.pi := by
    rw [abs_lt]
    constructor <;> [linarith [ht.1, hf.2]; linarith [ht.2, hf.1]]
  have hd0 : (0 : ℝ) ≤ |Δ * (180 / Real.pi)| := abs_nonneg _
  have hdlt : |Δ * (180 / Real.pi)| < 360 := by
    have hpos : (0 : ℝ) < 180 / Real.pi := by positivity
    rw [abs_mul, abs_of_pos hpos]
    have h360 : 2 * Real.pi * (180 / Real.pi) = 360 := by
      field_simp
      ring
    calc |Δ| * (180 / Real.pi) < 2 * Real.pi * (180 / Real.pi) :=
          mul_lt_mul_of_pos_right habs (by positivity)
      _ = 360 := h360
  have hproj : (calculate_accuracy_metrics shot_id target final).path_direction_error =
      if 180 < |Δ * (180 / Real.pi)| then 360 - |Δ * (180 / Real.pi)|
      else |Δ * (180 / Real.pi)| := rfl
  rw [hproj]
  refine ⟨?_, ?_, rfl, by simp [angleOf]⟩
  · split_ifs with h
    · linarith
    · exact hd0
  · split_ifs with h
    · linarith
    · linarith
